import Mathlib

/-!
Shallow embedding of the audio-recorder service (src/app.py and src/main.py).

The repository is a FastAPI websocket endpoint that accumulates binary audio
chunks per client in a dictionary `clients_audios : dict[str, list[bytes]]`,
finalizes them to disk on a receive timeout or on a "close()" text token, and
cleans up the per-client state in a `finally` block.

Bytes are modelled as lists of naturals (one per byte); the Python dict is
modelled as an association list.  Python dict keys are unique, so the erase
operation below removes every entry with the key; on the unique-key states that
arise this coincides with `dict.pop`.  File writes are recorded as an ordered
list of (filename, content) events rather than performed.
-/

set_option autoImplicit false

namespace AudioRecorder

/-- Raw bytes (a Python `bytes` value), one natural number per byte. -/
abbrev Bytes := List Nat

/-- The `clients_audios : dict[str, list[bytes]]` mapping of `VoiceReceiverService`,
as an association list from client id to its accumulated chunk sequence. -/
abbrev AudioMap := List (String × List Bytes)

/-- Dictionary lookup: `m[k]` / `k in m` combined, first matching entry. -/
def lookupA : AudioMap → String → Option (List Bytes)
  | [], _ => none
  | (k', v) :: rest, k => if k' = k then some v else lookupA rest k

/-- Dictionary removal (`dict.pop(k, None)`): drops every entry with key `k`
(keys are unique in a Python dict, so this is the same entry). -/
def eraseA : AudioMap → String → AudioMap
  | [], _ => []
  | p :: rest, k => if p.1 = k then eraseA rest k else p :: eraseA rest k

/-- Dictionary assignment `m[k] = v`: replaces the value at the first (and, keys
being unique, only) entry with key `k`, otherwise appends the new entry at the
end (Python dicts keep insertion order). -/
def setA : AudioMap → String → List Bytes → AudioMap
  | [], k, v => [(k, v)]
  | p :: rest, k, v => if p.1 = k then (k, v) :: rest else p :: setA rest k v

/-! ### Files written by the service -/

/-- Content of one file written by the service: either the raw concatenated
buffer (the `.webm` file) or a waveform file as produced through the `wave`
module (channel count, sample width in bytes, frame rate, and the signed
integer samples passed to `writeframes`). -/
inductive FileContent where
  | raw (data : Bytes)
  | wav (nchannels sampwidth framerate : Nat) (frames : List Int)
  deriving DecidableEq

/-- One recorded file write: target filename and content. -/
structure FileWrite where
  name : String
  content : FileContent
  deriving DecidableEq

/-! ### IEEE-754 binary32 arithmetic used by save_wav

`save_wav` runs `np.frombuffer(data, dtype=np.float32)`, multiplies by `32767`
in float32, and casts with `.astype(np.int32)` (C truncation toward zero; on
x86, NaN, infinite and out-of-range values all produce the integer `-2^31`).
The bit-exact semantics is embedded over `ℚ`. -/

/-- Exact value of `2 ^ e` in `ℚ` for an integer exponent. -/
def pow2 (e : Int) : ℚ :=
  if 0 ≤ e then ((2 ^ e.toNat : Nat) : ℚ) else 1 / ((2 ^ (-e).toNat : Nat) : ℚ)

/-- Floor of a rational as an integer (floor division of numerator by denominator). -/
def ratFloor (q : ℚ) : Int :=
  Int.fdiv q.num (q.den : Int)

/-- Rounding of a rational to an integer, round-half-to-even (the IEEE-754
default rounding used by numpy float32 arithmetic). -/
def roundHalfEven (q : ℚ) : Int :=
  let f := ratFloor q
  let r := q - (f : ℚ)
  if r < 1 / 2 then f
  else if 1 / 2 < r then f + 1
  else if f % 2 = 0 then f else f + 1

/-- Integer e with `2 ^ e ≤ q < 2 ^ (e + 1)`, for positive `q`: the candidate from
the bit lengths of numerator and denominator is off by at most one and is fixed
up by direct comparison. -/
def qlog2 (q : ℚ) : Int :=
  let e0 : Int := (Nat.log2 q.num.toNat : Int) - (Nat.log2 q.den : Int)
  if q < pow2 e0 then e0 - 1
  else if q < pow2 (e0 + 1) then e0
  else e0 + 1

/-- Value of an IEEE-754 binary32 bit pattern as a rational; `none` for the
exponent field 255 (infinities and NaNs). -/
def f32Val (bits : Nat) : Option ℚ :=
  let s : Nat := bits / 2 ^ 31 % 2
  let e : Nat := bits / 2 ^ 23 % 2 ^ 8
  let f : Nat := bits % 2 ^ 23
  if e = 255 then none
  else
    let mag : ℚ :=
      if e = 0 then (f : ℚ) * pow2 (-149)
      else ((2 ^ 23 + f : Nat) : ℚ) * pow2 ((e : Int) - 150)
    some (if s = 1 then -mag else mag)

/-- Rounding of an exact rational to the nearest IEEE-754 binary32 value
(round-half-to-even); `none` when the result overflows to an infinity. -/
def roundF32 (q : ℚ) : Option ℚ :=
  if q = 0 then some 0
  else
    let a := |q|
    let v : Option ℚ :=
      if a < pow2 (-126) then
        some ((roundHalfEven (a * pow2 149) : ℚ) * pow2 (-149))
      else
        let e := qlog2 a
        let m := roundHalfEven (a * pow2 (23 - e))
        let me : Int × Int := if m = 2 ^ 24 then (2 ^ 23, e + 1) else (m, e)
        if 127 < me.2 then none else some ((me.1 : ℚ) * pow2 (me.2 - 23))
    match v with
    | none => none
    | some w => some (if q < 0 then -w else w)

/-- One sample of `(data_np * 32767).astype(np.int32)` in save_wav: decode the
binary32 bit pattern, multiply by 32767 in float32, truncate toward zero to a
signed 32-bit integer (NaN, infinite and out-of-range products give `-2^31`,
the x86 `cvttss2si` result numpy produces). -/
def floatMulToInt32 (bits : Nat) : Int :=
  match f32Val bits with
  | none => -(2 ^ 31)
  | some v =>
    match roundF32 (v * 32767) with
    | none => -(2 ^ 31)
    | some p =>
      let t := Int.tdiv p.num (p.den : Int)
      if t < -(2 ^ 31) ∨ 2 ^ 31 ≤ t then -(2 ^ 31) else t

/-- Little-endian 32-bit group of four bytes, as read by
`np.frombuffer(..., dtype=np.float32)` on a little-endian platform. -/
def le32 (b0 b1 b2 b3 : Nat) : Nat :=
  b0 + 256 * (b1 + 256 * (b2 + 256 * b3))

/-- Bit patterns of the 4-byte little-endian groups of a byte string; trailing
bytes that do not form a complete group are dropped. -/
def groupF32 : Bytes → List Nat
  | b0 :: b1 :: b2 :: b3 :: rest => le32 b0 b1 b2 b3 :: groupF32 rest
  | _ => []

/-! ### VoiceReceiverService (src/app.py)

The class carries a Singleton metaclass, so every `VoiceReceiverService()`
call site shares one instance; the instance state is the `clients_audios`
map.  Effects (file writes, exceptions) are made explicit: the two boolean
flags say whether the body of save_wav's try block raises (`wavFail`, caught
inside save_wav) and whether the raw-file open/write raises (`rawFail`,
propagating out of save_audio). -/

/-- Result of a save_audio / no_voice_activity call: the updated
`clients_audios` map, the file writes performed in order, and whether the
call raised an exception out of itself. -/
structure SaveResult where
  m : AudioMap
  writes : List FileWrite
  raised : Bool
  deriving DecidableEq

/-- VoiceReceiverService.process_audio_frame (src/app.py lines 17-25): create
the client's list when absent, then append the chunk (the md5 hash is only
logged). -/
def process_audio_frame (m : AudioMap) (data : Bytes) (client_id : String) : AudioMap :=
  let m1 := if (lookupA m client_id).isSome then m else setA m client_id []
  match lookupA m1 client_id with
  | some l => setA m1 client_id (l ++ [data])
  | none => m1

/-- VoiceReceiverService.save_wav (src/app.py lines 31-52): truncate the buffer
to whole 4-byte samples, reinterpret as float32, scale by 32767 into int32,
and write a wave file with 1 channel, sample width 4 and frame rate 16000.
Everything from the scaling onward sits in a try/except that only logs, so a
failure (`wavFail`) produces no write and no exception. -/
def save_wav (data : Bytes) (filename : String) (wavFail : Bool) : List FileWrite :=
  let truncated := data.take (data.length / 4 * 4)
  let frames := (groupF32 truncated).map floatMulToInt32
  if wavFail then []
  else [⟨filename, .wav 1 4 16000 frames⟩]

/-- VoiceReceiverService.save_audio (src/app.py lines 54-72): pop the client's
chunk list (removing the key); return when it was absent or empty; otherwise
join the chunks, write them verbatim to `client_id ++ ".webm"`, then call
save_wav on the same buffer for `client_id ++ ".wav"`.  When the raw-file
write raises (`rawFail`) the pop has already happened and the exception
propagates before save_wav runs. -/
def save_audio (m : AudioMap) (client_id : String) (wavFail rawFail : Bool) : SaveResult :=
  match lookupA m client_id with
  | none => ⟨m, [], false⟩
  | some audio_data =>
    let m' := eraseA m client_id
    if audio_data = [] then ⟨m', [], false⟩
    else if rawFail then ⟨m', [], true⟩
    else
      let joined := audio_data.flatten
      ⟨m', ⟨client_id ++ ".webm", .raw joined⟩ :: save_wav joined (client_id ++ ".wav") wavFail,
        false⟩

/-- VoiceReceiverService.no_voice_activity (src/app.py lines 27-29): call
save_audio only when the client has an entry and its list is non-empty. -/
def no_voice_activity (m : AudioMap) (client_id : String) (wavFail rawFail : Bool) : SaveResult :=
  match lookupA m client_id with
  | some l => if l ≠ [] then save_audio m client_id wavFail rawFail else ⟨m, [], false⟩
  | none => ⟨m, [], false⟩

/-- VoiceReceiverService.pop_clients_audios (src/app.py lines 81-83): drop the
client's entry when present. -/
def pop_clients_audios (m : AudioMap) (client_id : String) : AudioMap :=
  if (lookupA m client_id).isSome then eraseA m client_id else m

/-! ### The websocket handler get_audio (src/app.py lines 90-124) -/

/-- One unit the receive loop observes per iteration: a timeout of
`asyncio.wait_for`, a binary message, a text message, a message that is
neither (for example the disconnect message), or an exception raised by
`websocket.receive` itself.  Timeout and text events carry the failure flags
of the finalize they may trigger. -/
inductive Event where
  | timeout (wavFail rawFail : Bool)
  | bytes (b : Bytes)
  | text (s : String) (wavFail rawFail : Bool)
  | other
  | recvErr
  deriving DecidableEq

/-- State touched by one websocket handler: the shared singleton service map,
the keys of the module-level `connected_clients` dict, the file writes so far,
and instrumentation counters for the number of no_voice_activity calls made
and the number of times the `finally` cleanup ran. -/
structure HState where
  svc : AudioMap
  registry : List String
  writes : List FileWrite
  finCalls : Nat
  cleanups : Nat
  deriving DecidableEq

/-- Cleanup of the `finally` block (src/app.py lines 122-124):
`pop_clients_audios(client_id)` then `connected_clients.pop(client_id, None)`. -/
def finallyCleanup (client_id : String) (st : HState) : HState :=
  { st with
    svc := pop_clients_audios st.svc client_id,
    registry := st.registry.filter (· ≠ client_id),
    cleanups := st.cleanups + 1 }

/-- Application of one no_voice_activity call's result to the handler state. -/
def applyFin (st : HState) (r : SaveResult) : HState :=
  { st with svc := r.m, writes := st.writes ++ r.writes, finCalls := st.finCalls + 1 }

/-- Receive loop of get_audio (src/app.py lines 97-124) over a list of observed
events.  The returned boolean is true when the loop exited (break or caught
exception) and the `finally` cleanup ran; it is false when the given events
were exhausted with the loop still waiting for the next unit.  Timeout: call
no_voice_activity and continue (an exception from it is caught by the outer
except and ends the connection).  Binary message: process_audio_frame.  Text
message: finalize and break only on the exact token "close()"; any other text
is silently ignored and the loop keeps receiving.  Any other message shape,
or a receive error: exit the loop.  Every exit path runs the cleanup. -/
def runLoop (client_id : String) : List Event → HState → HState × Bool
  | [], st => (st, false)
  | e :: rest, st =>
    match e with
    | .timeout wf rf =>
      let r := no_voice_activity st.svc client_id wf rf
      let st' := applyFin st r
      if r.raised then (finallyCleanup client_id st', true)
      else runLoop client_id rest st'
    | .bytes b =>
      runLoop client_id rest { st with svc := process_audio_frame st.svc b client_id }
    | .text s wf rf =>
      if s = "close()" then
        let r := no_voice_activity st.svc client_id wf rf
        let st' := applyFin st r
        (finallyCleanup client_id st', true)
      else runLoop client_id rest st
    | .other => (finallyCleanup client_id st, true)
    | .recvErr => (finallyCleanup client_id st, true)

/-- Registration of a connection in `connected_clients` (src/app.py line 94):
dict assignment keeps an existing key in place, otherwise appends it. -/
def registerClient (registry : List String) (client_id : String) : List String :=
  if client_id ∈ registry then registry else registry ++ [client_id]

/-- Whole websocket handler get_audio (src/app.py lines 90-124): accept and
register the connection, then run the receive loop. -/
def get_audio (client_id : String) (events : List Event) (st : HState) : HState × Bool :=
  runLoop client_id events { st with registry := registerClient st.registry client_id }

/-! ### The src/main.py variant

src/main.py defines the same class WITHOUT the Singleton metaclass (line 11:
plain `class VoiceReceiverService:`), its save_audio writes only the raw
`.webm` file (no save_wav step), and every call site `VoiceReceiverService()`
in its handler constructs a fresh instance whose `clients_audios` dict is
empty and is dropped right after the call. -/

/-- VoiceReceiverService.save_audio of src/main.py (lines 25-33): pop the
client's chunks and, when non-empty, write their concatenation to
`client_id ++ ".webm"`; no waveform output. -/
def main_save_audio (m : AudioMap) (client_id : String) (rawFail : Bool) : SaveResult :=
  match lookupA m client_id with
  | none => ⟨m, [], false⟩
  | some audio_data =>
    let m' := eraseA m client_id
    if audio_data = [] then ⟨m', [], false⟩
    else if rawFail then ⟨m', [], true⟩
    else ⟨m', [⟨client_id ++ ".webm", .raw audio_data.flatten⟩], false⟩

/-- VoiceReceiverService.no_voice_activity of src/main.py (lines 21-23). -/
def main_no_voice_activity (m : AudioMap) (client_id : String) (rawFail : Bool) : SaveResult :=
  match lookupA m client_id with
  | some l => if l ≠ [] then main_save_audio m client_id rawFail else ⟨m, [], false⟩
  | none => ⟨m, [], false⟩

/-- State of the src/main.py handler: with no Singleton metaclass there is no
shared service map, only the `connected_clients` registry, the writes and the
counters. -/
structure MState where
  registry : List String
  writes : List FileWrite
  finCalls : Nat
  cleanups : Nat
  deriving DecidableEq

/-- Cleanup of the `finally` block of src/main.py (lines 75-77): the
pop_clients_audios call runs on yet another fresh empty instance, so only the
registry changes. -/
def mainFinallyCleanup (client_id : String) (st : MState) : MState :=
  { st with
    registry := st.registry.filter (· ≠ client_id),
    cleanups := st.cleanups + 1 }

/-- Receive loop of src/main.py's get_audio (lines 49-77).  The code shape is
identical to src/app.py, but each `VoiceReceiverService()` call site builds a
fresh instance: process_audio_frame appends into a fresh empty map that is
immediately discarded, and no_voice_activity runs on a fresh empty map. -/
def mainRunLoop (client_id : String) : List Event → MState → MState × Bool
  | [], st => (st, false)
  | e :: rest, st =>
    match e with
    | .timeout _ rf =>
      let r := main_no_voice_activity ([] : AudioMap) client_id rf
      let st' := { st with writes := st.writes ++ r.writes, finCalls := st.finCalls + 1 }
      if r.raised then (mainFinallyCleanup client_id st', true)
      else mainRunLoop client_id rest st'
    | .bytes b =>
      let _discarded := process_audio_frame ([] : AudioMap) b client_id
      mainRunLoop client_id rest st
    | .text s _ rf =>
      if s = "close()" then
        let r := main_no_voice_activity ([] : AudioMap) client_id rf
        let st' := { st with writes := st.writes ++ r.writes, finCalls := st.finCalls + 1 }
        (mainFinallyCleanup client_id st', true)
      else mainRunLoop client_id rest st
    | .other => (mainFinallyCleanup client_id st, true)
    | .recvErr => (mainFinallyCleanup client_id st, true)

/-! ### Basic lemmas about the dictionary model -/

theorem lookupA_eraseA_self (m : AudioMap) (k : String) :
    lookupA (eraseA m k) k = none := by
  induction m with
  | nil => rfl
  | cons p rest ih =>
    by_cases h : p.1 = k
    · simpa [eraseA, h] using ih
    · simpa [eraseA, lookupA, h] using ih

theorem lookupA_setA_self (m : AudioMap) (k : String) (v : List Bytes) :
    lookupA (setA m k v) k = some v := by
  induction m with
  | nil => simp [setA, lookupA]
  | cons p rest ih =>
    by_cases h : p.1 = k
    · simp [setA, lookupA, h]
    · simpa [setA, lookupA, h] using ih

theorem lookupA_pop_clients_audios_self (m : AudioMap) (k : String) :
    lookupA (pop_clients_audios m k) k = none := by
  unfold pop_clients_audios
  by_cases h : (lookupA m k).isSome
  · simp [h, lookupA_eraseA_self]
  · simp only [h, if_neg]
    simp only [Option.isSome] at h
    cases hl : lookupA m k with
    | none => simpa [h] using hl
    | some v => rw [hl] at h; simp at h

theorem process_audio_frame_lookup (m : AudioMap) (b : Bytes) (k : String) :
    lookupA (process_audio_frame m b k) k
      = some ((lookupA m k).getD [] ++ [b]) := by
  unfold process_audio_frame
  cases h : lookupA m k with
  | none =>
    simp only [h, Option.isSome_none, Bool.false_eq_true, if_false]
    rw [lookupA_setA_self]
    simp [lookupA_setA_self]
  | some l =>
    simp only [h, Option.isSome_some, if_true, lookupA_setA_self]
    simp

theorem lookupA_foldl_process (k : String) (cs : List Bytes) :
    ∀ (m : AudioMap) (l : List Bytes), lookupA m k = some l →
      lookupA (cs.foldl (fun acc c => process_audio_frame acc c k) m) k
        = some (l ++ cs) := by
  induction cs with
  | nil => intro m l h; simpa using h
  | cons c cs ih =>
    intro m l h
    simp only [List.foldl_cons]
    have h1 : lookupA (process_audio_frame m c k) k = some (l ++ [c]) := by
      rw [process_audio_frame_lookup, h]; rfl
    simpa using ih _ _ h1

theorem lookupA_foldl_process_of_none (k : String) (cs : List Bytes) (m : AudioMap)
    (h : lookupA m k = none) (hcs : cs ≠ []) :
    lookupA (cs.foldl (fun acc c => process_audio_frame acc c k) m) k = some cs := by
  cases cs with
  | nil => exact absurd rfl hcs
  | cons c cs =>
    simp only [List.foldl_cons]
    have h1 : lookupA (process_audio_frame m c k) k = some [c] := by
      rw [process_audio_frame_lookup, h]; rfl
    simpa using lookupA_foldl_process k cs _ _ h1

theorem save_audio_raised_false (m : AudioMap) (k : String) (wf : Bool) :
    (save_audio m k wf false).raised = false := by
  unfold save_audio
  cases h : lookupA m k with
  | none => rfl
  | some l => by_cases hl : l = [] <;> simp [hl]

theorem no_voice_activity_raised_false (m : AudioMap) (k : String) (wf : Bool) :
    (no_voice_activity m k wf false).raised = false := by
  unfold no_voice_activity
  cases h : lookupA m k with
  | none => rfl
  | some l =>
    by_cases hl : l = [] <;> simp [hl, save_audio_raised_false]

theorem groupF32_length : ∀ xs : Bytes, (groupF32 xs).length = xs.length / 4
  | [] => rfl
  | [_] => by simp [groupF32]
  | [_, _] => by simp [groupF32]
  | [_, _, _] => by simp [groupF32]
  | _ :: _ :: _ :: _ :: rest => by
    have ih := groupF32_length rest
    simp only [groupF32, List.length_cons, ih]
    omega

/-! ### Claim theorems -/

/-- C1: for every client id and every sequence of N chunks appended via
process_audio_frame, a drain by save_audio yields exactly those N chunks in
arrival order, their in-order concatenation is the bytes written to the raw
file, and a second drain immediately after returns empty and writes nothing. -/
theorem appended_chunks_drain_once (m : AudioMap) (client_id : String)
    (cs : List Bytes) (wf : Bool)
    (h0 : lookupA m client_id = none) (hcs : cs ≠ []) :
    let m1 := cs.foldl (fun acc c => process_audio_frame acc c client_id) m
    let r1 := save_audio m1 client_id wf false
    let r2 := save_audio r1.m client_id wf false
    lookupA m1 client_id = some cs ∧
    r1.writes.head? = some ⟨client_id ++ ".webm", .raw cs.flatten⟩ ∧
    lookupA r1.m client_id = none ∧
    r2.writes = [] ∧ r2.m = r1.m := by
  intro m1 r1 r2
  have h1 : lookupA m1 client_id = some cs :=
    lookupA_foldl_process_of_none client_id cs m h0 hcs
  have hr1 : r1 = ⟨eraseA m1 client_id,
      ⟨client_id ++ ".webm", .raw cs.flatten⟩ ::
        save_wav cs.flatten (client_id ++ ".wav") wf, false⟩ := by
    show save_audio m1 client_id wf false = _
    unfold save_audio
    simp [h1, hcs]
  have h2 : lookupA r1.m client_id = none := by
    rw [hr1]; exact lookupA_eraseA_self m1 client_id
  have hr2 : r2 = ⟨r1.m, [], false⟩ := by
    show save_audio r1.m client_id wf false = _
    unfold save_audio
    simp [h2]
  exact ⟨h1, by rw [hr1]; rfl, h2, by rw [hr2], by rw [hr2]⟩

/-- Witness for C1 at the scenario of the claim: client "abc" appends the two
chunks 00 01 and 02 03, a drain yields both in order with the raw file holding
00 01 02 03, and a second drain is empty. -/
theorem appended_chunks_drain_once_witness :
    lookupA ([] : AudioMap) "abc" = none ∧ ([[0, 1], [2, 3]] : List Bytes) ≠ [] ∧
    (let m1 := ([[0, 1], [2, 3]] : List Bytes).foldl
        (fun acc c => process_audio_frame acc c "abc") ([] : AudioMap)
     let r1 := save_audio m1 "abc" false false
     let r2 := save_audio r1.m "abc" false false
     lookupA m1 "abc" = some [[0, 1], [2, 3]] ∧
     r1.writes.head? = some ⟨"abc" ++ ".webm", .raw ([[0, 1], [2, 3]] : List Bytes).flatten⟩ ∧
     lookupA r1.m "abc" = none ∧
     r2.writes = [] ∧ r2.m = r1.m) :=
  ⟨rfl, by decide,
    appended_chunks_drain_once [] "abc" [[0, 1], [2, 3]] false rfl (by decide)⟩

/-- C6: a no_voice_activity call fired while the accumulator holds no entry,
or an empty sequence, for the client is a no-op: no file write and the
accumulator state is returned unchanged. -/
theorem empty_finalize_noop (m : AudioMap) (client_id : String) (wf rf : Bool)
    (h : lookupA m client_id = none ∨ lookupA m client_id = some []) :
    no_voice_activity m client_id wf rf = ⟨m, [], false⟩ := by
  unfold no_voice_activity
  rcases h with h | h <;> simp [h]

/-- Witness for C6: a map holding only another client's chunks; finalizing
"abc" changes nothing and writes nothing. -/
theorem empty_finalize_noop_witness :
    (lookupA ([("xyz", [[7]])] : AudioMap) "abc" = none ∨
      lookupA ([("xyz", [[7]])] : AudioMap) "abc" = some []) ∧
    no_voice_activity ([("xyz", [[7]])] : AudioMap) "abc" true true
      = ⟨[("xyz", [[7]])], [], false⟩ :=
  ⟨Or.inl (by decide), empty_finalize_noop [("xyz", [[7]])] "abc" true true
    (Or.inl (by decide))⟩

/-- C7: on a finalize of a non-empty buffer, a failure of the secondary
re-encode step (save_wav) is contained: save_audio does not raise, the raw
file write has already happened and stays first in the write sequence, and
under the failure the raw write is the only write. -/
theorem wav_failure_contained (m : AudioMap) (client_id : String)
    (cs : List Bytes) (wf : Bool)
    (h : lookupA m client_id = some cs) (hcs : cs ≠ []) :
    (save_audio m client_id wf false).raised = false ∧
    (save_audio m client_id wf false).writes.head?
      = some ⟨client_id ++ ".webm", .raw cs.flatten⟩ ∧
    (wf = true → (save_audio m client_id wf false).writes
      = [⟨client_id ++ ".webm", .raw cs.flatten⟩]) := by
  have hr : save_audio m client_id wf false = ⟨eraseA m client_id,
      ⟨client_id ++ ".webm", .raw cs.flatten⟩ ::
        save_wav cs.flatten (client_id ++ ".wav") wf, false⟩ := by
    unfold save_audio
    simp [h, hcs]
  refine ⟨by rw [hr], by rw [hr]; rfl, fun hwf => ?_⟩
  rw [hr, hwf]
  simp [save_wav]

/-- Witness for C7: one chunk for "abc" and a failing save_wav step; the raw
write alone happens and no exception escapes. -/
theorem wav_failure_contained_witness :
    lookupA ([("abc", [[1, 2]])] : AudioMap) "abc" = some [[1, 2]] ∧
    ([[1, 2]] : List Bytes) ≠ [] ∧
    ((save_audio ([("abc", [[1, 2]])] : AudioMap) "abc" true false).raised = false ∧
     (save_audio ([("abc", [[1, 2]])] : AudioMap) "abc" true false).writes.head?
       = some ⟨"abc" ++ ".webm", .raw ([[1, 2]] : List Bytes).flatten⟩ ∧
     (true = true → (save_audio ([("abc", [[1, 2]])] : AudioMap) "abc" true false).writes
       = [⟨"abc" ++ ".webm", .raw ([[1, 2]] : List Bytes).flatten⟩])) :=
  ⟨by decide, by decide,
    wav_failure_contained [("abc", [[1, 2]])] "abc" [[1, 2]] true (by decide) (by decide)⟩

/-- C5: a finalize of a non-empty buffer writes the raw file verbatim and then
a waveform file over the same buffer: the payload truncated to the largest
prefix whose length is a multiple of 4, each 4-byte group read as a 32-bit
float sample, multiplied by 32767 and converted to a signed integer, under a
header recording 1 channel and a 16000 Hz frame rate; the sample count is the
byte length divided by 4. -/
theorem finalize_writes_raw_then_pcm (m : AudioMap) (client_id : String)
    (cs : List Bytes)
    (h : lookupA m client_id = some cs) (hcs : cs ≠ []) :
    (save_audio m client_id false false).writes =
      [⟨client_id ++ ".webm", .raw cs.flatten⟩,
       ⟨client_id ++ ".wav",
        .wav 1 4 16000
          ((groupF32 (cs.flatten.take (cs.flatten.length / 4 * 4))).map
            floatMulToInt32)⟩] ∧
    ((groupF32 (cs.flatten.take (cs.flatten.length / 4 * 4))).map
        floatMulToInt32).length = cs.flatten.length / 4 := by
  constructor
  · unfold save_audio
    simp [h, hcs, save_wav]
  · rw [List.length_map, groupF32_length, List.length_take]
    omega

/-- Witness for C5: client "abc" holds one 6-byte chunk whose first four bytes
are the little-endian float32 for 1.0; the raw file keeps all 6 bytes, the
waveform file holds the single sample 32767 with a 1-channel 16000 Hz header. -/
theorem finalize_writes_raw_then_pcm_witness :
    lookupA ([("abc", [[0, 0, 128, 63, 9, 9]])] : AudioMap) "abc"
      = some [[0, 0, 128, 63, 9, 9]] ∧
    ([[0, 0, 128, 63, 9, 9]] : List Bytes) ≠ [] ∧
    ((save_audio ([("abc", [[0, 0, 128, 63, 9, 9]])] : AudioMap) "abc" false false).writes =
      [⟨"abc" ++ ".webm", .raw ([[0, 0, 128, 63, 9, 9]] : List Bytes).flatten⟩,
       ⟨"abc" ++ ".wav",
        .wav 1 4 16000
          ((groupF32 (([[0, 0, 128, 63, 9, 9]] : List Bytes).flatten.take
              (([[0, 0, 128, 63, 9, 9]] : List Bytes).flatten.length / 4 * 4))).map
            floatMulToInt32)⟩] ∧
     ((groupF32 (([[0, 0, 128, 63, 9, 9]] : List Bytes).flatten.take
         (([[0, 0, 128, 63, 9, 9]] : List Bytes).flatten.length / 4 * 4))).map
        floatMulToInt32).length = ([[0, 0, 128, 63, 9, 9]] : List Bytes).flatten.length / 4) :=
  ⟨by decide, by decide,
    finalize_writes_raw_then_pcm [("abc", [[0, 0, 128, 63, 9, 9]])] "abc"
      [[0, 0, 128, 63, 9, 9]] (by decide) (by decide)⟩

/-- C10: process_audio_frame accepts zero-length chunks, a session holding
only zero-length chunks counts as non-empty for no_voice_activity, and its
finalize writes a zero-byte raw file plus a waveform file with zero samples,
leaving the accumulator without the client. -/
theorem zero_length_chunks_still_finalize (m : AudioMap) (client_id : String)
    (zs : List Bytes) (hz : ∀ z ∈ zs, z = ([] : Bytes)) (hzs : zs ≠ [])
    (h0 : lookupA m client_id = none) :
    let m1 := zs.foldl (fun acc c => process_audio_frame acc c client_id) m
    let r := no_voice_activity m1 client_id false false
    lookupA m1 client_id = some zs ∧
    r.writes = [⟨client_id ++ ".webm", .raw []⟩,
                ⟨client_id ++ ".wav", .wav 1 4 16000 []⟩] ∧
    lookupA r.m client_id = none := by
  intro m1 r
  have h1 : lookupA m1 client_id = some zs :=
    lookupA_foldl_process_of_none client_id zs m h0 hzs
  have hflat : zs.flatten = [] := by
    rw [List.flatten_eq_nil_iff]
    intro l hl
    exact hz l hl
  have hr : r = ⟨eraseA m1 client_id,
      [⟨client_id ++ ".webm", .raw []⟩,
       ⟨client_id ++ ".wav", .wav 1 4 16000 []⟩], false⟩ := by
    show no_voice_activity m1 client_id false false = _
    unfold no_voice_activity save_audio
    simp [h1, hzs, hflat, save_wav, groupF32]
  exact ⟨h1, by rw [hr], by rw [hr]; exact lookupA_eraseA_self m1 client_id⟩

/-- Witness for C10: two empty chunks for "abc" produce a zero-byte raw file
and a zero-sample waveform file. -/
theorem zero_length_chunks_still_finalize_witness :
    (∀ z ∈ ([[], []] : List Bytes), z = ([] : Bytes)) ∧
    ([[], []] : List Bytes) ≠ [] ∧
    lookupA ([] : AudioMap) "abc" = none ∧
    (let m1 := ([[], []] : List Bytes).foldl
        (fun acc c => process_audio_frame acc c "abc") ([] : AudioMap)
     let r := no_voice_activity m1 "abc" false false
     lookupA m1 "abc" = some [[], []] ∧
     r.writes = [⟨"abc" ++ ".webm", .raw []⟩,
                 ⟨"abc" ++ ".wav", .wav 1 4 16000 []⟩] ∧
     lookupA r.m "abc" = none) :=
  ⟨by decide, by decide, rfl,
    zero_length_chunks_still_finalize [] "abc" [[], []] (by decide) (by decide) rfl⟩

/-! ### Structure lemmas about the receive loop -/

theorem runLoop_closed_structure (client_id : String) :
    ∀ (events : List Event) (st : HState), (runLoop client_id events st).2 = true →
      ∃ st', runLoop client_id events st = (finallyCleanup client_id st', true) ∧
        st'.cleanups = st.cleanups := by
  intro events
  induction events with
  | nil => intro st h; simp [runLoop] at h
  | cons e rest ih =>
    intro st h
    cases e with
    | timeout wf rf =>
      by_cases hr : (no_voice_activity st.svc client_id wf rf).raised = true
      · exact ⟨applyFin st (no_voice_activity st.svc client_id wf rf),
          by simp [runLoop, hr], rfl⟩
      · simp only [runLoop, if_neg hr] at h ⊢
        obtain ⟨st', heq, hc⟩ := ih _ h
        exact ⟨st', heq, hc⟩
    | bytes b =>
      simp only [runLoop] at h ⊢
      obtain ⟨st', heq, hc⟩ := ih _ h
      exact ⟨st', heq, hc⟩
    | text s wf rf =>
      by_cases hs : s = "close()"
      · exact ⟨applyFin st (no_voice_activity st.svc client_id wf rf),
          by simp [runLoop, hs], rfl⟩
      · simp only [runLoop, if_neg hs] at h ⊢
        obtain ⟨st', heq, hc⟩ := ih _ h
        exact ⟨st', heq, hc⟩
    | other => exact ⟨st, by simp [runLoop], rfl⟩
    | recvErr => exact ⟨st, by simp [runLoop], rfl⟩

theorem runLoop_timeouts_open (client_id : String) :
    ∀ (events : List Event) (st : HState),
      (∀ e ∈ events, ∃ wf, e = Event.timeout wf false) →
      (runLoop client_id events st).2 = false ∧
      (runLoop client_id events st).1.registry = st.registry ∧
      (runLoop client_id events st).1.finCalls = st.finCalls + events.length := by
  intro events
  induction events with
  | nil => intro st _; exact ⟨rfl, rfl, rfl⟩
  | cons e rest ih =>
    intro st hev
    obtain ⟨wf, rfl⟩ := hev e (List.mem_cons_self e rest)
    have hr : (no_voice_activity st.svc client_id wf false).raised = false :=
      no_voice_activity_raised_false _ _ _
    have hrest : ∀ e ∈ rest, ∃ wf, e = Event.timeout wf false :=
      fun e he => hev e (List.mem_cons_of_mem _ he)
    simp only [runLoop, hr, Bool.false_eq_true, if_false]
    obtain ⟨h1, h2, h3⟩ :=
      ih (applyFin st (no_voice_activity st.svc client_id wf false)) hrest
    refine ⟨h1, h2, ?_⟩
    rw [h3]
    simp [applyFin]
    omega

/-! ### Claim theorems about the connection loop -/

/-- C2: for every exit path of the connection loop (close token, unrecognized
message shape, transport error, or a raised finalize) the finally cleanup runs
exactly once, and afterwards the client id is absent from both the registry
of connected clients and the service's clients_audios map. -/
theorem cleanup_exactly_once_on_exit (client_id : String) (events : List Event)
    (st : HState) (hclosed : (get_audio client_id events st).2 = true) :
    (get_audio client_id events st).1.cleanups = st.cleanups + 1 ∧
    client_id ∉ (get_audio client_id events st).1.registry ∧
    lookupA (get_audio client_id events st).1.svc client_id = none := by
  unfold get_audio at hclosed ⊢
  obtain ⟨st', heq, hc⟩ := runLoop_closed_structure client_id events _ hclosed
  rw [heq]
  refine ⟨?_, ?_, ?_⟩
  · show st'.cleanups + 1 = st.cleanups + 1
    rw [hc]
  · show client_id ∉ (finallyCleanup client_id st').registry
    simp [finallyCleanup]
  · exact lookupA_pop_clients_audios_self _ _

/-- Witness for C2: "abc" appends one chunk, then the close-token finalize
itself raises (raw-file write failure); the exception is caught, the cleanup
still runs exactly once, and "abc" is absent from both stores. -/
theorem cleanup_exactly_once_on_exit_witness :
    (get_audio "abc" [.bytes [1], .text "close()" false true]
        ⟨[], [], [], 0, 0⟩).2 = true ∧
    ((get_audio "abc" [.bytes [1], .text "close()" false true]
        ⟨[], [], [], 0, 0⟩).1.cleanups = (0 : Nat) + 1 ∧
     "abc" ∉ (get_audio "abc" [.bytes [1], .text "close()" false true]
        ⟨[], [], [], 0, 0⟩).1.registry ∧
     lookupA (get_audio "abc" [.bytes [1], .text "close()" false true]
        ⟨[], [], [], 0, 0⟩).1.svc "abc" = none) :=
  ⟨by decide,
    cleanup_exactly_once_on_exit "abc" [.bytes [1], .text "close()" false true]
      ⟨[], [], [], 0, 0⟩ (by decide)⟩

/-- C8: a run consisting solely of receive-timeout expiries calls the
finalizer once per expiry and never closes the connection: the loop is still
waiting afterwards and the client stays registered, for arbitrarily many
consecutive timeouts. -/
theorem timeouts_never_close (client_id : String) (events : List Event)
    (st : HState) (hreg : client_id ∈ st.registry)
    (hev : ∀ e ∈ events, ∃ wf, e = Event.timeout wf false) :
    (runLoop client_id events st).2 = false ∧
    client_id ∈ (runLoop client_id events st).1.registry ∧
    (runLoop client_id events st).1.finCalls = st.finCalls + events.length := by
  obtain ⟨h1, h2, h3⟩ := runLoop_timeouts_open client_id events st hev
  exact ⟨h1, h2 ▸ hreg, h3⟩

/-- Witness for C8: two consecutive timeouts for registered client "abc" (the
first drains its chunk, the second is a no-op): the loop stays open, "abc"
stays registered, the finalizer ran twice. -/
theorem timeouts_never_close_witness :
    "abc" ∈ (⟨[("abc", [[1, 2, 3, 4]])], ["abc"], [], 0, 0⟩ : HState).registry ∧
    (∀ e ∈ ([.timeout false false, .timeout true false] : List Event),
      ∃ wf, e = Event.timeout wf false) ∧
    ((runLoop "abc" [.timeout false false, .timeout true false]
        ⟨[("abc", [[1, 2, 3, 4]])], ["abc"], [], 0, 0⟩).2 = false ∧
     "abc" ∈ (runLoop "abc" [.timeout false false, .timeout true false]
        ⟨[("abc", [[1, 2, 3, 4]])], ["abc"], [], 0, 0⟩).1.registry ∧
     (runLoop "abc" [.timeout false false, .timeout true false]
        ⟨[("abc", [[1, 2, 3, 4]])], ["abc"], [], 0, 0⟩).1.finCalls
       = (0 : Nat) + ([.timeout false false, .timeout true false] : List Event).length) :=
  ⟨by decide, by decide,
    timeouts_never_close "abc" [.timeout false false, .timeout true false]
      ⟨[("abc", [[1, 2, 3, 4]])], ["abc"], [], 0, 0⟩ (by decide) (by decide)⟩

/-- C9: after any appended chunks, a close token produces exactly the file
writes a timeout at the same point would produce, and additionally exits the
receive loop at once, while the timeout leaves the loop waiting. -/
theorem close_token_matches_timeout (client_id : String) (cs : List Bytes)
    (wf : Bool) (st : HState) :
    (runLoop client_id (cs.map Event.bytes ++ [.text "close()" wf false]) st).1.writes
      = (runLoop client_id (cs.map Event.bytes ++ [.timeout wf false]) st).1.writes ∧
    (runLoop client_id (cs.map Event.bytes ++ [.text "close()" wf false]) st).2 = true ∧
    (runLoop client_id (cs.map Event.bytes ++ [.timeout wf false]) st).2 = false := by
  induction cs generalizing st with
  | nil =>
    have hr : (no_voice_activity st.svc client_id wf false).raised = false :=
      no_voice_activity_raised_false _ _ _
    simp [runLoop, hr, applyFin, finallyCleanup]
  | cons c cs ih =>
    simpa only [List.map_cons, List.cons_append, runLoop] using
      ih { st with svc := process_audio_frame st.svc c client_id }

/-- C4 counterexample: a text payload different from the close token does NOT
terminate the loop: after receiving the text "hello" the connection is still
open, no cleanup ran, and the handler state is untouched. -/
theorem nonclose_text_keeps_loop_open :
    (runLoop "abc" [.text "hello" false false] ⟨[], ["abc"], [], 0, 0⟩).2 = false ∧
    (runLoop "abc" [.text "hello" false false] ⟨[], ["abc"], [], 0, 0⟩).1
      = ⟨[], ["abc"], [], 0, 0⟩ := by
  decide

/-- C4 as amended: a unit that is neither a binary payload nor a text payload
transitions to CLOSED without finalizing (cleanup runs, no finalize call, no
write), while a text payload different from the reserved close token is
silently ignored: the loop keeps receiving as if the unit had not arrived. -/
theorem nonbinary_nontext_closes (client_id s : String) (wf rf : Bool)
    (st : HState) (rest : List Event) (hs : s ≠ "close()") :
    runLoop client_id (.text s wf rf :: rest) st = runLoop client_id rest st ∧
    runLoop client_id (.other :: rest) st = (finallyCleanup client_id st, true) ∧
    (finallyCleanup client_id st).finCalls = st.finCalls ∧
    (finallyCleanup client_id st).writes = st.writes := by
  refine ⟨?_, rfl, rfl, rfl⟩
  simp [runLoop, hs]

/-- Witness for the amended C4: the text "hello" leaves a run unchanged while
an unrecognized shape closes with cleanup and neither finalizes nor writes. -/
theorem nonbinary_nontext_closes_witness :
    ("hello" : String) ≠ "close()" ∧
    (runLoop "abc" [.text "hello" false false, .timeout false false]
        ⟨[], ["abc"], [], 0, 0⟩
      = runLoop "abc" [.timeout false false] ⟨[], ["abc"], [], 0, 0⟩ ∧
     runLoop "abc" [.other, .timeout false false] ⟨[], ["abc"], [], 0, 0⟩
      = (finallyCleanup "abc" ⟨[], ["abc"], [], 0, 0⟩, true) ∧
     (finallyCleanup "abc" (⟨[], ["abc"], [], 0, 0⟩ : HState)).finCalls
       = (⟨[], ["abc"], [], 0, 0⟩ : HState).finCalls ∧
     (finallyCleanup "abc" (⟨[], ["abc"], [], 0, 0⟩ : HState)).writes
       = (⟨[], ["abc"], [], 0, 0⟩ : HState).writes) :=
  ⟨by decide,
    nonbinary_nontext_closes "abc" "hello" false false ⟨[], ["abc"], [], 0, 0⟩
      [.timeout false false] (by decide)⟩

/-! ### Lemma about the src/main.py variant -/

theorem mainRunLoop_writes_unchanged (client_id : String) :
    ∀ (events : List Event) (st : MState),
      (mainRunLoop client_id events st).1.writes = st.writes := by
  intro events
  induction events with
  | nil => intro st; rfl
  | cons e rest ih =>
    intro st
    cases e with
    | timeout wf rf => simpa [mainRunLoop, main_no_voice_activity, lookupA] using ih _
    | bytes b => simpa [mainRunLoop] using ih _
    | text s wf rf =>
      by_cases hs : s = "close()"
      · simp [mainRunLoop, hs, main_no_voice_activity, lookupA, mainFinallyCleanup]
      · simpa [mainRunLoop, hs] using ih _
    | other => simp [mainRunLoop, mainFinallyCleanup]
    | recvErr => simp [mainRunLoop, mainFinallyCleanup]

/-- C3: the src/main.py variant, whose VoiceReceiverService has no Singleton
metaclass, gives every call site a fresh empty instance: its no_voice_activity
always sees an empty map and never calls save_audio, its loop never writes a
file on any event sequence, while the src/app.py loop on the very same trace
(one chunk, then a timeout) does write — the two variants are not
behaviourally equivalent. -/
theorem main_variant_never_writes :
    (∀ (client_id : String) (events : List Event) (st : MState),
        (mainRunLoop client_id events st).1.writes = st.writes) ∧
    (∀ (client_id : String) (rf : Bool),
        main_no_voice_activity ([] : AudioMap) client_id rf = ⟨[], [], false⟩) ∧
    (mainRunLoop "abc" [.bytes [0, 1, 2, 3], .timeout false false]
        ⟨["abc"], [], 0, 0⟩).1.writes = [] ∧
    (runLoop "abc" [.bytes [0, 1, 2, 3], .timeout false false]
        ⟨[], ["abc"], [], 0, 0⟩).1.writes ≠ [] := by
  refine ⟨mainRunLoop_writes_unchanged, fun client_id rf => rfl, ?_, ?_⟩
  · exact mainRunLoop_writes_unchanged "abc" _ _
  · decide

end AudioRecorder
